import Mathlib

/-!
A shallow embedding, in Lean 4, of the flashcard study tool in `app.py`
(SSC ACADEMIC HUB): the card data model, the Duplicate Resolver run at
startup (`init_db`), the Flash Card tab's filter / shuffle / selection
logic, the scoring button handlers, the single-card create handler, and
the bulk-add handler.  The SQLite table `study_cards` is embedded as a
list of `Card` records ordered by `id`; Streamlit session state fields
(`card_index`, `show_answer`, `card_order`) form `SessionState`.
-/

namespace SscApp

/-- A row of the `study_cards` table: `key` is the question text and
`value` the answer text, exactly as the columns are named in `app.py`. -/
structure Card where
  id : Nat
  topic : String
  subtopic : String
  key : String
  value : String
  success : Nat
  failure : Nat
  bookmarked : Bool
deriving DecidableEq, Repr

/-- The "Study Focus" radio of the Flash Card tab:
`["All", "Wrong", "Right", "Bookmarks"]`. -/
inductive FilterMode where
  | all
  | wrong
  | right
  | bookmarks
deriving DecidableEq, Repr

/-- Filtering step of the Flash Card tab: `Wrong` keeps rows with
`failure > 0`, `Right` keeps `success > 0`, `Bookmarks` keeps
`bookmarked == 1`, `All` keeps everything. -/
def applyFilter (mode : FilterMode) (sub_df : List Card) : List Card :=
  match mode with
  | .all => sub_df
  | .wrong => sub_df.filter (fun c => decide (0 < c.failure))
  | .right => sub_df.filter (fun c => decide (0 < c.success))
  | .bookmarks => sub_df.filter (fun c => c.bookmarked)

/-- Modelled from the spec: `np.random.permutation(n)` (numpy's
Fisher-Yates shuffle) is not part of this repository, so it is embedded
as a Fisher-Yates selection shuffle driven by an arbitrary stream
`rand : Nat → Nat` of random draws; at each step one element of the
remaining pool is drawn and removed.  The fuel argument starts at the
pool's length. -/
def shuffleAux (rand : Nat → Nat) : Nat → List Nat → List Nat
  | 0, _ => []
  | _, [] => []
  | fuel + 1, l =>
    let j := rand fuel % l.length
    l.getD j 0 :: shuffleAux rand fuel (l.eraseIdx j)

/-- Modelled from the spec: `np.random.permutation(len(filtered_df)).tolist()`
— a randomized ordering of the indices `0 .. n-1`. -/
def fisherYates (rand : Nat → Nat) (n : Nat) : List Nat :=
  shuffleAux rand n (List.range n)

/-- The Streamlit session state fields used by the Flash Card tab:
`st.session_state.card_index`, `st.session_state.show_answer`,
`st.session_state.card_order` (`None` until first generated). -/
structure SessionState where
  card_index : Nat
  show_answer : Bool
  card_order : Option (List Nat)
deriving DecidableEq, Repr

/-- The Flash Card tab's selection logic: filter `sub_df` by `mode`; if
the filtered frame is empty show nothing and leave the state alone;
otherwise regenerate `card_order` when it is `None` or its length no
longer matches the filtered frame, then display
`filtered_df.iloc[card_order[card_index % len(filtered_df)]]`. -/
def selectStep (rand : Nat → Nat) (mode : FilterMode) (sub_df : List Card)
    (st : SessionState) : SessionState × Option Card :=
  let filtered := applyFilter mode sub_df
  if filtered.isEmpty then
    (st, none)
  else
    let order :=
      match st.card_order with
      | none => fisherYates rand filtered.length
      | some o =>
        if o.length = filtered.length then o else fisherYates rand filtered.length
    let card_num := st.card_index % filtered.length
    let actual_index := order.getD card_num 0
    ({ st with card_order := some order }, filtered[actual_index]?)

/-- The "✅ Got it Right!" handler: `UPDATE study_cards SET success =
success + 1 WHERE id = ?`, then `card_index += 1` and
`show_answer = False`. -/
def gotRight (cid : Nat) (store : List Card) (st : SessionState) :
    List Card × SessionState :=
  (store.map fun c => if c.id = cid then { c with success := c.success + 1 } else c,
   { st with card_index := st.card_index + 1, show_answer := false })

/-- The "❌ Got it Wrong" handler: `UPDATE study_cards SET failure =
failure + 1 WHERE id = ?`, then `card_index += 1` and
`show_answer = False`. -/
def gotWrong (cid : Nat) (store : List Card) (st : SessionState) :
    List Card × SessionState :=
  (store.map fun c => if c.id = cid then { c with failure := c.failure + 1 } else c,
   { st with card_index := st.card_index + 1, show_answer := false })

/-- Accuracy metric of the stats bar:
`success / (success + failure) * 100` when at least one attempt was
recorded, `0` otherwise.  Python's float division is embedded over `ℚ`. -/
def computeAccuracy (success failure : Nat) : ℚ :=
  if 0 < success + failure then
    (success : ℚ) / ((success : ℚ) + (failure : ℚ)) * 100
  else 0

/-- SQLite's `INTEGER PRIMARY KEY AUTOINCREMENT` id assignment: one more
than the largest id ever used, embedded as one more than the largest id
currently in the table. -/
def nextId (store : List Card) : Nat :=
  store.foldr (fun c acc => max c.id acc) 0 + 1

/-- The "➕ Add New Subtopic" Create handler: `SELECT COUNT(*) FROM
study_cards WHERE topic=? AND subtopic=?`; if the count is positive the
insert is rejected with a warning, otherwise a placeholder card
`(topic, subtopic, "Definition", "Answer")` is inserted.  Returns the new
store and whether the create succeeded. -/
def createSubtopic (store : List Card) (t s : String) : List Card × Bool :=
  if 0 < store.countP (fun c => c.topic == t && c.subtopic == s) then
    (store, false)
  else
    (store ++ [{ id := nextId store, topic := t, subtopic := s,
                 key := "Definition", value := "Answer",
                 success := 0, failure := 0, bookmarked := false }],
     true)

/-- The deduplication key used by `init_db`:
`df.duplicated(subset=['topic', 'subtopic', 'key'], ...)`. -/
def key3 (c : Card) : String × String × String :=
  (c.topic, c.subtopic, c.key)

/-- Recursion of the Duplicate Resolver: a row is deleted exactly when an
earlier row of the frame carries the same (topic, subtopic, key) —
pandas' `duplicated(..., keep='first')`.  `seen` accumulates the keys of
rows already kept. -/
def resolveAux (seen : List (String × String × String)) : List Card → List Card
  | [] => []
  | c :: rest =>
    if key3 c ∈ seen then resolveAux seen rest
    else c :: resolveAux (key3 c :: seen) rest

/-- The duplicate-cleaning pass of `init_db`: keep each row whose
(topic, subtopic, key) did not appear on an earlier row, delete the
rest. -/
def resolveDuplicates (df : List Card) : List Card :=
  resolveAux [] df

/-- Recursion of Python's `str.split(sep)` over character lists: scan
left to right, cut at each non-overlapping occurrence of the (nonempty)
separator.  The fuel starts at the string's length and bounds the scan;
`acc` holds the current chunk reversed. -/
def splitAux (sep : List Char) : Nat → List Char → List Char → List (List Char)
  | 0, s, acc => [acc.reverse ++ s]
  | fuel + 1, s, acc =>
    match s with
    | [] => [acc.reverse]
    | c :: rest =>
      if sep.isPrefixOf (c :: rest) then
        acc.reverse :: splitAux sep fuel ((c :: rest).drop sep.length) []
      else
        splitAux sep fuel rest (c :: acc)

/-- Python's `line.split("-!-")`-style split, on character lists. -/
def pySplit (sep : List Char) (s : List Char) : List (List Char) :=
  splitAux sep s.length s []

/-- Python's `str.strip()`: drop whitespace from both ends. -/
def pyStrip (s : List Char) : List Char :=
  ((s.dropWhile Char.isWhitespace).reverse.dropWhile Char.isWhitespace).reverse

/-- One iteration of the bulk-add Process handler over a single line of
the text area: if the line splits on `-!-` into exactly two parts, strip
them into question and answer, count the line as skipped when a card
with the same (topic, subtopic, question) already exists, otherwise
insert it and count it as added; any other line is ignored.  (Python's
guard `"-!-" in line` holds exactly when the split has at least two
parts, so it is subsumed by the two-part test.)  The accumulator is
(store, added, skipped). -/
def bulkLine (t s : String) (acc : List Card × Nat × Nat) (line : String) :
    List Card × Nat × Nat :=
  let (store, added, skipped) := acc
  let parts := pySplit "-!-".data line.data
  if parts.length = 2 then
    let q : String := ⟨pyStrip (parts.getD 0 [])⟩
    let a : String := ⟨pyStrip (parts.getD 1 [])⟩
    if 0 < store.countP (fun c => c.topic == t && c.subtopic == s && c.key == q) then
      (store, added, skipped + 1)
    else
      (store ++ [{ id := nextId store, topic := t, subtopic := s,
                   key := q, value := a,
                   success := 0, failure := 0, bookmarked := false }],
       added + 1, skipped)
  else
    (store, added, skipped)

/-- The whole bulk-add Process handler: fold `bulkLine` over the lines of
the text area, starting from zero added and zero skipped. -/
def bulkAdd (t s : String) (store : List Card) (lines : List String) :
    List Card × Nat × Nat :=
  lines.foldl (bulkLine t s) (store, 0, 0)

/-! ### Concrete sample data for witnesses -/

/-- Scenario A's card: topic Physics, subtopic Motion, fresh counters. -/
def cardA : Card :=
  ⟨1, "Physics", "Motion", "F=ma?", "Newtons second law", 0, 0, false⟩

/-- A card already marked wrong once (failure = 1). -/
def cardW1 : Card := ⟨1, "Physics", "Motion", "q1", "a1", 0, 1, false⟩

/-- A second card already marked wrong twice (failure = 2). -/
def cardW2 : Card := ⟨2, "Physics", "Motion", "q2", "a2", 0, 2, false⟩

/-- A card whose question differs from the Create handler's "Definition"
placeholder. -/
def cardB : Card := ⟨1, "Chemistry", "Acids", "What is pH?", "a scale", 0, 0, false⟩

/-- Scenario C: three cards sharing (topic, subtopic, question) with
different answers, ids ascending. -/
def dupA : Card := ⟨1, "Biology", "Cells", "What is a cell?", "unit one", 0, 0, false⟩

/-- Second duplicate of `dupA`'s key. -/
def dupB : Card := ⟨2, "Biology", "Cells", "What is a cell?", "unit two", 0, 0, false⟩

/-- Third duplicate of `dupA`'s key. -/
def dupC : Card := ⟨3, "Biology", "Cells", "What is a cell?", "unit three", 0, 0, false⟩

/-! ### Helper lemmas about the shuffler -/

/-- The selection shuffle permutes its pool whenever the fuel covers the
pool's length. -/
theorem shuffleAux_perm (rand : Nat → Nat) :
    ∀ (fuel : Nat) (l : List Nat), l.length ≤ fuel →
      (shuffleAux rand fuel l).Perm l := by
  intro fuel
  induction fuel with
  | zero =>
    intro l hl
    have : l = [] := List.length_eq_zero.mp (Nat.le_zero.mp hl)
    subst this
    simp [shuffleAux]
  | succ fuel ih =>
    intro l hl
    match l with
    | [] => simp [shuffleAux]
    | a :: l' =>
      have hlen : 0 < (a :: l').length := by simp
      have hj : rand fuel % (a :: l').length < (a :: l').length :=
        Nat.mod_lt _ hlen
      have hgetD : (a :: l').getD (rand fuel % (a :: l').length) 0 =
          (a :: l')[rand fuel % (a :: l').length] := by
        rw [List.getD_eq_getElem?_getD, List.getElem?_eq_getElem hj]
        rfl
      have herase : ((a :: l').eraseIdx (rand fuel % (a :: l').length)).length ≤ fuel := by
        have := List.length_eraseIdx_add_one hj
        omega
      have hperm := ih _ herase
      show List.Perm ((a :: l').getD (rand fuel % (a :: l').length) 0 ::
          shuffleAux rand fuel ((a :: l').eraseIdx (rand fuel % (a :: l').length))) (a :: l')
      rw [hgetD]
      have h2 : List.Perm ((a :: l').eraseIdx (rand fuel % (a :: l').length))
          ((a :: l').erase ((a :: l')[rand fuel % (a :: l').length])) :=
        (List.erase_getElem hj).symm
      have h3 : List.Perm
          ((a :: l')[rand fuel % (a :: l').length] ::
            (a :: l').erase ((a :: l')[rand fuel % (a :: l').length]))
          (a :: l') :=
        (List.perm_cons_erase (List.getElem_mem hj)).symm
      exact (List.Perm.cons _ (hperm.trans h2)).trans h3

/-- Whatever the random stream, the generated card order is a
rearrangement of `0 .. n-1`. -/
theorem fisherYates_perm (rand : Nat → Nat) (n : Nat) :
    (fisherYates rand n).Perm (List.range n) :=
  shuffleAux_perm rand n (List.range n) (by simp)

/-- A rearrangement of `0 .. n-1` holds each index below `n` exactly
once. -/
theorem count_eq_one_of_perm_range {o : List Nat} {n : Nat}
    (h : o.Perm (List.range n)) {i : Nat} (hi : i < n) : o.count i = 1 := by
  rw [h.count_eq]
  exact List.count_eq_one_of_mem (List.nodup_range _) (List.mem_range.mpr hi)

/-- When the filtered frame is nonempty, the card order stored back into
the session is the old one when its length matches, else a fresh
shuffle. -/
theorem selectStep_order (rand : Nat → Nat) (mode : FilterMode)
    (sub_df : List Card) (st : SessionState)
    (hne : applyFilter mode sub_df ≠ []) :
    (selectStep rand mode sub_df st).1.card_order = some (
      match st.card_order with
      | none => fisherYates rand (applyFilter mode sub_df).length
      | some o =>
        if o.length = (applyFilter mode sub_df).length then o
        else fisherYates rand (applyFilter mode sub_df).length) := by
  have hempty : (applyFilter mode sub_df).isEmpty = false := by
    simpa [List.isEmpty_iff] using hne
  simp only [selectStep, hempty, Bool.false_eq_true, if_false]

/-! ### Claim C5: the stored shuffle order is a permutation -/

/-- C5: whenever the Flash Card tab runs on a nonempty filtered set of
size n with a session whose stored order (if any) is a permutation of
its own index range, the shuffle order stored back has length n and
holds every index 0 .. n-1 exactly once. -/
theorem card_order_perm_spec (rand : Nat → Nat) (mode : FilterMode)
    (sub_df : List Card) (st : SessionState)
    (hne : applyFilter mode sub_df ≠ [])
    (hinv : ∀ o, st.card_order = some o → o.Perm (List.range o.length)) :
    ∃ o, (selectStep rand mode sub_df st).1.card_order = some o ∧
      o.length = (applyFilter mode sub_df).length ∧
      ∀ i, i < (applyFilter mode sub_df).length → o.count i = 1 := by
  rw [selectStep_order rand mode sub_df st hne]
  rcases ho : st.card_order with _ | o
  · refine ⟨fisherYates rand (applyFilter mode sub_df).length, rfl, ?_, ?_⟩
    · rw [(fisherYates_perm rand _).length_eq, List.length_range]
    · intro i hi
      exact count_eq_one_of_perm_range (fisherYates_perm rand _) hi
  · by_cases hlen : o.length = (applyFilter mode sub_df).length
    · refine ⟨o, by simp [hlen], hlen, ?_⟩
      intro i hi
      have hperm : o.Perm (List.range (applyFilter mode sub_df).length) := by
        rw [← hlen]
        exact hinv o ho
      exact count_eq_one_of_perm_range hperm hi
    · refine ⟨fisherYates rand (applyFilter mode sub_df).length, by simp [hlen], ?_, ?_⟩
      · rw [(fisherYates_perm rand _).length_eq, List.length_range]
      · intro i hi
        exact count_eq_one_of_perm_range (fisherYates_perm rand _) hi

/-- Witness for C5 at a concrete one-card session with no stored order. -/
theorem card_order_perm_spec_witness :
    applyFilter .all [cardA] ≠ [] ∧
    ∃ o, (selectStep (fun _ => 0) .all [cardA] ⟨0, false, none⟩).1.card_order = some o ∧
      o.length = (applyFilter .all [cardA]).length ∧
      ∀ i, i < (applyFilter .all [cardA]).length → o.count i = 1 :=
  ⟨by decide,
   card_order_perm_spec (fun _ => 0) .all [cardA] ⟨0, false, none⟩ (by decide)
     (fun _ h => nomatch h)⟩

/-! ### Claim C9: empty filtered set -/

/-- C9: when the active filter leaves no cards, the selector shows no
card and the whole session state — the cursor in particular — is left
untouched. -/
theorem emptySelection_spec (rand : Nat → Nat) (mode : FilterMode)
    (sub_df : List Card) (st : SessionState)
    (hempty : applyFilter mode sub_df = []) :
    selectStep rand mode sub_df st = (st, none) := by
  simp [selectStep, hempty]

/-- Witness for C9: Bookmarked mode over a subtopic with zero bookmarked
cards shows nothing and keeps the cursor at 5. -/
theorem emptySelection_spec_witness :
    applyFilter .bookmarks [cardA, cardW1] = [] ∧
    selectStep (fun _ => 0) .bookmarks [cardA, cardW1] ⟨5, true, none⟩ =
      (⟨5, true, none⟩, none) :=
  ⟨by decide,
   emptySelection_spec (fun _ => 0) .bookmarks [cardA, cardW1] ⟨5, true, none⟩ (by decide)⟩

/-! ### Claim C6: cursor wrap -/

/-- C6: with a stored order of matching length (so no reshuffle), the
card shown at cursor c is `filtered[order[c % n]]`, and the card shown
at cursor c + n is the same one. -/
theorem cursor_wrap_spec (rand : Nat → Nat) (mode : FilterMode)
    (sub_df : List Card) (sa : Bool) (o : List Nat) (c : Nat)
    (hne : applyFilter mode sub_df ≠ [])
    (hlen : o.length = (applyFilter mode sub_df).length) :
    (selectStep rand mode sub_df ⟨c, sa, some o⟩).2 =
      (applyFilter mode sub_df)[o.getD (c % (applyFilter mode sub_df).length) 0]? ∧
    (selectStep rand mode sub_df ⟨c + (applyFilter mode sub_df).length, sa, some o⟩).2 =
      (selectStep rand mode sub_df ⟨c, sa, some o⟩).2 := by
  have hempty : (applyFilter mode sub_df).isEmpty = false := by
    simpa [List.isEmpty_iff] using hne
  constructor
  · simp only [selectStep, hempty, Bool.false_eq_true, if_false, hlen, if_pos]
  · simp only [selectStep, hempty, Bool.false_eq_true, if_false, hlen, if_pos,
      Nat.add_mod_right]

/-- Witness for C6 at a two-card set, stored order [1, 0], cursor 1. -/
theorem cursor_wrap_spec_witness :
    applyFilter .all [cardA, cardW2] ≠ [] ∧
    ((selectStep (fun _ => 0) .all [cardA, cardW2] ⟨1, false, some [1, 0]⟩).2 =
      (applyFilter .all [cardA, cardW2])[[1, 0].getD
        (1 % (applyFilter .all [cardA, cardW2]).length) 0]? ∧
    (selectStep (fun _ => 0) .all [cardA, cardW2]
        ⟨1 + (applyFilter .all [cardA, cardW2]).length, false, some [1, 0]⟩).2 =
      (selectStep (fun _ => 0) .all [cardA, cardW2] ⟨1, false, some [1, 0]⟩).2) :=
  ⟨by decide,
   cursor_wrap_spec (fun _ => 0) .all [cardA, cardW2] false [1, 0] 1
     (by decide) (by decide)⟩

/-! ### Claim C2: when does a reshuffle happen -/

/-- C2 counterexample: switching the Study Focus to Wrong while the
stored order (generated under All, which also matched both cards) has
the same length as the new filtered set keeps the old order [1, 0]
unchanged — no fresh permutation is generated, although the shuffle of
the given random stream would be [0, 1]. -/
theorem filter_change_keeps_order :
    (selectStep (fun _ => 0) .wrong [cardW1, cardW2] ⟨0, false, some [1, 0]⟩).1.card_order
        = some [1, 0] ∧
    fisherYates (fun _ => 0) (applyFilter .wrong [cardW1, cardW2]).length = [0, 1] ∧
    (selectStep (fun _ => 0) .wrong [cardW1, cardW2] ⟨0, false, some [1, 0]⟩).1.card_order
        ≠ some (fisherYates (fun _ => 0) (applyFilter .wrong [cardW1, cardW2]).length) := by
  decide

/-- C2 amended: a fresh permutation is generated exactly when no shuffle
order exists or the stored order's length differs from the filtered
set's size; a mere change of filter_mode that keeps the size equal
preserves the old order. -/
theorem reshuffle_condition_spec (rand : Nat → Nat) (mode : FilterMode)
    (sub_df : List Card) (st : SessionState)
    (hne : applyFilter mode sub_df ≠ []) :
    (st.card_order = none →
      (selectStep rand mode sub_df st).1.card_order =
        some (fisherYates rand (applyFilter mode sub_df).length)) ∧
    (∀ o, st.card_order = some o → o.length ≠ (applyFilter mode sub_df).length →
      (selectStep rand mode sub_df st).1.card_order =
        some (fisherYates rand (applyFilter mode sub_df).length)) ∧
    (∀ o, st.card_order = some o → o.length = (applyFilter mode sub_df).length →
      (selectStep rand mode sub_df st).1.card_order = some o) := by
  rw [selectStep_order rand mode sub_df st hne]
  refine ⟨fun h => by simp [h], fun o ho hlen => by simp [ho, hlen],
    fun o ho hlen => by simp [ho, hlen]⟩

/-- Witness for C2's amended statement: the same-length branch keeps the
old order. -/
theorem reshuffle_condition_spec_witness :
    applyFilter .wrong [cardW1, cardW2] ≠ [] ∧
    (selectStep (fun _ => 0) .wrong [cardW1, cardW2]
        ⟨0, false, some [1, 0]⟩).1.card_order = some [1, 0] :=
  ⟨by decide,
   (reshuffle_condition_spec (fun _ => 0) .wrong [cardW1, cardW2]
       ⟨0, false, some [1, 0]⟩ (by decide)).2.2 [1, 0] rfl (by decide)⟩

/-! ### Claims C4 and C1: the scoring handlers -/

/-- C4: "Got it Right!" bumps the matched card's success counter by
exactly one while its failure counter stays as it was, advances the
cursor by exactly one, resets the reveal flag, and leaves every card
with a different id untouched. -/
theorem gotRight_spec (cid : Nat) (store : List Card) (st : SessionState)
    (c : Card) (hc : c ∈ store) (hid : c.id = cid) :
    (gotRight cid store st).2.card_index = st.card_index + 1 ∧
    (gotRight cid store st).2.show_answer = false ∧
    { c with success := c.success + 1 } ∈ (gotRight cid store st).1 ∧
    ({ c with success := c.success + 1 } : Card).failure = c.failure ∧
    ∀ d ∈ store, d.id ≠ cid → d ∈ (gotRight cid store st).1 := by
  refine ⟨rfl, rfl, ?_, rfl, ?_⟩
  · have h : ({ c with success := c.success + 1 } : Card) =
        (fun x : Card => if x.id = cid then { x with success := x.success + 1 } else x) c := by
      simp [hid]
    rw [h]
    exact List.mem_map_of_mem _ hc
  · intro d hd hne
    have h : d = (fun x : Card => if x.id = cid then { x with success := x.success + 1 } else x) d := by
      simp [hne]
    rw [h]
    exact List.mem_map_of_mem _ hd

/-- Witness for C4: Scenario A — one `gotRight` on the fresh Physics
card leaves a card with success 1, failure 0 and advances the cursor
from 0 to 1. -/
theorem gotRight_spec_witness :
    cardA ∈ [cardA] ∧ cardA.id = 1 ∧
    ((gotRight 1 [cardA] ⟨0, true, some [0]⟩).2.card_index = 0 + 1 ∧
     (gotRight 1 [cardA] ⟨0, true, some [0]⟩).2.show_answer = false ∧
     { cardA with success := cardA.success + 1 } ∈ (gotRight 1 [cardA] ⟨0, true, some [0]⟩).1 ∧
     ({ cardA with success := cardA.success + 1 } : Card).failure = cardA.failure ∧
     ∀ d ∈ [cardA], d.id ≠ 1 → d ∈ (gotRight 1 [cardA] ⟨0, true, some [0]⟩).1) :=
  ⟨by decide, rfl, gotRight_spec 1 [cardA] ⟨0, true, some [0]⟩ cardA (by decide) rfl⟩

/-- C1 counterexample: on a one-card store with the cursor at 0 and the
answer revealed, "Got it Wrong" moves the cursor to 1 and clears the
reveal flag, so the claimed "cursor unchanged and answer_revealed still
true" fails. -/
theorem gotWrong_claim_false :
    ¬ ((gotWrong 1 [cardA] ⟨0, true, some [0]⟩).2.card_index = 0 ∧
       (gotWrong 1 [cardA] ⟨0, true, some [0]⟩).2.show_answer = true) := by
  decide

/-- C1 amended: "Got it Wrong" bumps the matched card's failure counter
by exactly one while its success counter stays as it was, advances the
cursor by exactly one (exactly as "Got it Right!" does, so the same card
is not shown again), resets the reveal flag to false, and leaves every
card with a different id untouched. -/
theorem gotWrong_spec (cid : Nat) (store : List Card) (st : SessionState)
    (c : Card) (hc : c ∈ store) (hid : c.id = cid) :
    (gotWrong cid store st).2.card_index = st.card_index + 1 ∧
    (gotWrong cid store st).2.show_answer = false ∧
    { c with failure := c.failure + 1 } ∈ (gotWrong cid store st).1 ∧
    ({ c with failure := c.failure + 1 } : Card).success = c.success ∧
    ∀ d ∈ store, d.id ≠ cid → d ∈ (gotWrong cid store st).1 := by
  refine ⟨rfl, rfl, ?_, rfl, ?_⟩
  · have h : ({ c with failure := c.failure + 1 } : Card) =
        (fun x : Card => if x.id = cid then { x with failure := x.failure + 1 } else x) c := by
      simp [hid]
    rw [h]
    exact List.mem_map_of_mem _ hc
  · intro d hd hne
    have h : d = (fun x : Card => if x.id = cid then { x with failure := x.failure + 1 } else x) d := by
      simp [hne]
    rw [h]
    exact List.mem_map_of_mem _ hd

/-- Witness for the amended C1 on Scenario B's card. -/
theorem gotWrong_spec_witness :
    cardA ∈ [cardA] ∧ cardA.id = 1 ∧
    ((gotWrong 1 [cardA] ⟨0, true, some [0]⟩).2.card_index = 0 + 1 ∧
     (gotWrong 1 [cardA] ⟨0, true, some [0]⟩).2.show_answer = false ∧
     { cardA with failure := cardA.failure + 1 } ∈ (gotWrong 1 [cardA] ⟨0, true, some [0]⟩).1 ∧
     ({ cardA with failure := cardA.failure + 1 } : Card).success = cardA.success ∧
     ∀ d ∈ [cardA], d.id ≠ 1 → d ∈ (gotWrong 1 [cardA] ⟨0, true, some [0]⟩).1) :=
  ⟨by decide, rfl, gotWrong_spec 1 [cardA] ⟨0, true, some [0]⟩ cardA (by decide) rfl⟩

/-! ### Claim C7: accuracy bounds -/

/-- C7: the accuracy metric always lies between 0 and 100 and is exactly
0 when both counters are 0. -/
theorem computeAccuracy_bounds (s f : Nat) :
    0 ≤ computeAccuracy s f ∧ computeAccuracy s f ≤ 100 ∧ computeAccuracy 0 0 = 0 := by
  refine ⟨?_, ?_, by simp [computeAccuracy]⟩
  · unfold computeAccuracy
    split
    · have h0 : (0 : ℚ) ≤ (s : ℚ) / ((s : ℚ) + (f : ℚ)) :=
        div_nonneg (by positivity) (by positivity)
      nlinarith
    · exact le_refl 0
  · unfold computeAccuracy
    split
    · rename_i h
      have hd : (0 : ℚ) < (s : ℚ) + (f : ℚ) := by exact_mod_cast h
      have h1 : (s : ℚ) / ((s : ℚ) + (f : ℚ)) ≤ 1 := by
        rw [div_le_one hd]
        have hf : (0 : ℚ) ≤ (f : ℚ) := by positivity
        linarith
      nlinarith
    · norm_num

/-! ### Claim C3: the single-card create handler -/

/-- Every id in the store is below the freshly assigned one. -/
theorem id_lt_nextId (store : List Card) : ∀ c ∈ store, c.id < nextId store := by
  intro c hc
  have h : c.id ≤ store.foldr (fun c acc => max c.id acc) 0 := by
    induction store with
    | nil => cases hc
    | cons a rest ih =>
      rcases List.mem_cons.mp hc with h | h
      · subst h
        exact le_max_left _ _
      · exact le_trans (ih h) (le_max_right _ _)
  exact Nat.lt_succ_of_le h

/-- C3 counterexample: the store holds one Chemistry/Acids card whose
question is "What is pH?", and no card with question "Definition"; the
create that would insert (Chemistry, Acids, "Definition") is
nevertheless rejected, because the handler only checks the
(topic, subtopic) pair. -/
theorem create_triple_check_false :
    (createSubtopic [cardB] "Chemistry" "Acids").2 = false ∧
    ∀ c ∈ [cardB],
      ¬ (c.topic = "Chemistry" ∧ c.subtopic = "Acids" ∧ c.key = "Definition") := by
  decide

/-- C3 amended: the create is rejected exactly when some card with the
same (topic, subtopic) pair exists — regardless of its question — and a
successful create appends a placeholder card, with question "Definition"
and answer "Answer", under an id no existing card carries. -/
theorem createSubtopic_spec (store : List Card) (t s : String) :
    ((createSubtopic store t s).2 = false ↔
      ∃ c ∈ store, c.topic = t ∧ c.subtopic = s) ∧
    ((createSubtopic store t s).2 = true →
      (createSubtopic store t s).1 =
        store ++ [{ id := nextId store, topic := t, subtopic := s,
                    key := "Definition", value := "Answer",
                    success := 0, failure := 0, bookmarked := false }] ∧
      ∀ c ∈ store, c.id ≠ nextId store) := by
  have hiff : (0 < store.countP (fun c => c.topic == t && c.subtopic == s)) ↔
      ∃ c ∈ store, c.topic = t ∧ c.subtopic = s := by
    rw [List.countP_pos_iff]
    simp
  by_cases h : 0 < store.countP (fun c => c.topic == t && c.subtopic == s)
  · constructor
    · simp only [createSubtopic, if_pos h]
      simpa using hiff.mp h
    · intro habs
      exfalso
      simp only [createSubtopic, if_pos h] at habs
      cases habs
  · constructor
    · simp only [createSubtopic, if_neg h]
      simpa using fun hex => h (hiff.mpr hex)
    · intro _
      refine ⟨by simp only [createSubtopic, if_neg h], ?_⟩
      intro c hc
      exact Nat.ne_of_lt (id_lt_nextId store c hc)

/-- Witness for the amended C3: creating (Physics, Motion) over a store
with one Chemistry card succeeds and the assigned id 2 is fresh. -/
theorem createSubtopic_spec_witness :
    (createSubtopic [cardB] "Physics" "Motion").1 =
      [cardB] ++ [{ id := nextId [cardB], topic := "Physics", subtopic := "Motion",
                    key := "Definition", value := "Answer",
                    success := 0, failure := 0, bookmarked := false }] ∧
    ∀ c ∈ [cardB], c.id ≠ nextId [cardB] :=
  (createSubtopic_spec [cardB] "Physics" "Motion").2 (by decide)

/-! ### Claim C8: the Duplicate Resolver -/

/-- Every survivor of the resolver was a row of the frame. -/
theorem resolveAux_subset (l : List Card) :
    ∀ (seen : List (String × String × String)), ∀ c ∈ resolveAux seen l, c ∈ l := by
  induction l with
  | nil =>
    intro seen c hc
    cases hc
  | cons a rest ih =>
    intro seen c hc
    by_cases h : key3 a ∈ seen
    · rw [resolveAux, if_pos h] at hc
      exact List.mem_cons_of_mem _ (ih seen c hc)
    · rw [resolveAux, if_neg h] at hc
      rcases List.mem_cons.mp hc with h1 | h1
      · exact h1 ▸ List.mem_cons_self _ _
      · exact List.mem_cons_of_mem _ (ih _ c h1)

/-- No survivor carries a key that was already seen when the resolver
started. -/
theorem resolveAux_key_not_seen (l : List Card) :
    ∀ (seen : List (String × String × String)), ∀ c ∈ resolveAux seen l,
      key3 c ∉ seen := by
  induction l with
  | nil =>
    intro seen c hc
    cases hc
  | cons a rest ih =>
    intro seen c hc
    by_cases h : key3 a ∈ seen
    · rw [resolveAux, if_pos h] at hc
      exact ih seen c hc
    · rw [resolveAux, if_neg h] at hc
      rcases List.mem_cons.mp hc with h1 | h1
      · exact h1 ▸ h
      · exact fun hmem => ih _ c h1 (List.mem_cons_of_mem _ hmem)

/-- The survivors' keys are pairwise distinct. -/
theorem resolveAux_keys_nodup (l : List Card) :
    ∀ (seen : List (String × String × String)),
      ((resolveAux seen l).map key3).Nodup := by
  induction l with
  | nil =>
    intro seen
    simp [resolveAux]
  | cons a rest ih =>
    intro seen
    by_cases h : key3 a ∈ seen
    · rw [resolveAux, if_pos h]
      exact ih seen
    · rw [resolveAux, if_neg h]
      rw [List.map_cons, List.nodup_cons]
      refine ⟨?_, ih _⟩
      intro hmem
      rcases List.mem_map.mp hmem with ⟨c, hc, hkey⟩
      exact resolveAux_key_not_seen rest _ c hc (hkey ▸ List.mem_cons_self _ _)

/-- The resolver leaves a frame alone when its keys are already pairwise
distinct and none was seen before. -/
theorem resolveAux_eq_self (l : List Card) :
    ∀ (seen : List (String × String × String)),
      (l.map key3).Nodup → (∀ c ∈ l, key3 c ∉ seen) → resolveAux seen l = l := by
  induction l with
  | nil =>
    intro seen _ _
    rfl
  | cons a rest ih =>
    intro seen hnd hdisj
    rw [List.map_cons, List.nodup_cons] at hnd
    rw [resolveAux, if_neg (hdisj a (List.mem_cons_self _ _))]
    congr 1
    refine ih _ hnd.2 ?_
    intro c hc
    rw [List.mem_cons]
    push_neg
    constructor
    · intro hkey
      exact hnd.1 (hkey ▸ List.mem_map_of_mem key3 hc)
    · exact hdisj c (List.mem_cons_of_mem _ hc)

/-- Every key of the frame either was seen before or is represented by
some survivor. -/
theorem resolveAux_coverage (l : List Card) :
    ∀ (seen : List (String × String × String)), ∀ d ∈ l,
      key3 d ∈ seen ∨ ∃ c ∈ resolveAux seen l, key3 c = key3 d := by
  induction l with
  | nil =>
    intro seen d hd
    cases hd
  | cons a rest ih =>
    intro seen d hd
    by_cases h : key3 a ∈ seen
    · rw [resolveAux, if_pos h]
      rcases List.mem_cons.mp hd with h1 | h1
      · exact Or.inl (h1 ▸ h)
      · exact ih seen d h1
    · rw [resolveAux, if_neg h]
      rcases List.mem_cons.mp hd with h1 | h1
      · exact Or.inr ⟨a, List.mem_cons_self _ _, by rw [h1]⟩
      · rcases ih (key3 a :: seen) d h1 with h2 | ⟨c, hc, hkey⟩
        · rcases List.mem_cons.mp h2 with h3 | h3
          · exact Or.inr ⟨a, List.mem_cons_self _ _, h3.symm⟩
          · exact Or.inl h3
        · exact Or.inr ⟨c, List.mem_cons_of_mem _ hc, hkey⟩

/-- On a frame whose ids ascend, every survivor has the least id of its
key group. -/
theorem resolveAux_min_id (l : List Card) (hs : l.Pairwise (fun a b => a.id < b.id)) :
    ∀ (seen : List (String × String × String)), ∀ c ∈ resolveAux seen l,
      ∀ d ∈ l, key3 d = key3 c → c.id ≤ d.id := by
  induction l with
  | nil =>
    intro seen c hc
    cases hc
  | cons a rest ih =>
    rw [List.pairwise_cons] at hs
    intro seen k hk d hd hkey
    by_cases h : key3 a ∈ seen
    · rw [resolveAux, if_pos h] at hk
      rcases List.mem_cons.mp hd with h1 | h1
      · exfalso
        subst h1
        exact resolveAux_key_not_seen rest seen k hk (hkey ▸ h)
      · exact ih hs.2 seen k hk d h1 hkey
    · rw [resolveAux, if_neg h] at hk
      rcases List.mem_cons.mp hk with h2 | h2
      · subst h2
        rcases List.mem_cons.mp hd with h1 | h1
        · exact h1 ▸ Nat.le_refl _
        · exact Nat.le_of_lt (hs.1 d h1)
      · rcases List.mem_cons.mp hd with h1 | h1
        · exfalso
          subst h1
          exact resolveAux_key_not_seen rest _ k h2 (hkey ▸ List.mem_cons_self _ _)
        · exact ih hs.2 _ k h2 d h1 hkey

/-- C8: on a frame ordered by ascending id (as rows come back from the
store), the resolver keeps only rows of the frame, no two survivors
share a (topic, subtopic, question) key, every key group is represented
by its lowest-id row, and a second run removes nothing. -/
theorem resolveDuplicates_spec (df : List Card)
    (hs : df.Pairwise (fun a b => a.id < b.id)) :
    (∀ c ∈ resolveDuplicates df, c ∈ df) ∧
    ((resolveDuplicates df).map key3).Nodup ∧
    (∀ d ∈ df, ∃ c ∈ resolveDuplicates df, key3 c = key3 d) ∧
    (∀ c ∈ resolveDuplicates df, ∀ d ∈ df, key3 d = key3 c → c.id ≤ d.id) ∧
    resolveDuplicates (resolveDuplicates df) = resolveDuplicates df := by
  refine ⟨resolveAux_subset df [], resolveAux_keys_nodup df [], ?_, ?_, ?_⟩
  · intro d hd
    rcases resolveAux_coverage df [] d hd with h | h
    · cases h
    · exact h
  · exact resolveAux_min_id df hs []
  · exact resolveAux_eq_self _ [] (resolveAux_keys_nodup df [])
      (fun c _ hmem => by cases hmem)

/-- Witness for C8: Scenario C — three same-key cards with ids 1 < 2 < 3
collapse to exactly the id-1 card, and the conclusion of the resolver
theorem holds there. -/
theorem resolveDuplicates_spec_witness :
    resolveDuplicates [dupA, dupB, dupC] = [dupA] ∧
    ((∀ c ∈ resolveDuplicates [dupA, dupB, dupC], c ∈ [dupA, dupB, dupC]) ∧
     ((resolveDuplicates [dupA, dupB, dupC]).map key3).Nodup ∧
     (∀ d ∈ [dupA, dupB, dupC],
        ∃ c ∈ resolveDuplicates [dupA, dupB, dupC], key3 c = key3 d) ∧
     (∀ c ∈ resolveDuplicates [dupA, dupB, dupC],
        ∀ d ∈ [dupA, dupB, dupC], key3 d = key3 c → c.id ≤ d.id) ∧
     resolveDuplicates (resolveDuplicates [dupA, dupB, dupC]) =
       resolveDuplicates [dupA, dupB, dupC]) :=
  ⟨by decide, resolveDuplicates_spec [dupA, dupB, dupC] (by decide)⟩

/-! ### Claim C10: bulk-add line handling -/

/-- C10: a line that does not split on "-!-" into exactly two parts is
ignored — no insert, neither counter moves; a two-part line whose
trimmed question already exists under the active (topic, subtopic) only
bumps the skipped counter; any other two-part line inserts the trimmed
question/answer pair and bumps the added counter. -/
theorem bulkLine_spec (t s : String) (store : List Card) (added skipped : Nat)
    (line : String) :
    ((pySplit "-!-".data line.data).length ≠ 2 →
      bulkLine t s (store, added, skipped) line = (store, added, skipped)) ∧
    ((pySplit "-!-".data line.data).length = 2 →
      ((∃ c ∈ store, c.topic = t ∧ c.subtopic = s ∧
          c.key = ⟨pyStrip ((pySplit "-!-".data line.data).getD 0 [])⟩) →
        bulkLine t s (store, added, skipped) line = (store, added, skipped + 1)) ∧
      ((∀ c ∈ store, ¬ (c.topic = t ∧ c.subtopic = s ∧
          c.key = ⟨pyStrip ((pySplit "-!-".data line.data).getD 0 [])⟩)) →
        bulkLine t s (store, added, skipped) line =
          (store ++ [{ id := nextId store, topic := t, subtopic := s,
                       key := ⟨pyStrip ((pySplit "-!-".data line.data).getD 0 [])⟩,
                       value := ⟨pyStrip ((pySplit "-!-".data line.data).getD 1 [])⟩,
                       success := 0, failure := 0, bookmarked := false }],
           added + 1, skipped))) := by
  have hiff : (0 < store.countP (fun c => c.topic == t && c.subtopic == s &&
      c.key == (⟨pyStrip ((pySplit "-!-".data line.data).getD 0 [])⟩ : String))) ↔
      ∃ c ∈ store, c.topic = t ∧ c.subtopic = s ∧
        c.key = ⟨pyStrip ((pySplit "-!-".data line.data).getD 0 [])⟩ := by
    rw [List.countP_pos_iff]
    simp [and_assoc]
  constructor
  · intro hlen
    simp only [bulkLine, if_neg hlen]
  · intro hlen
    constructor
    · intro hex
      simp only [bulkLine, if_pos hlen, if_pos (hiff.mpr hex)]
    · intro hnone
      have hcount : ¬ (0 < store.countP (fun c => c.topic == t && c.subtopic == s &&
          c.key == (⟨pyStrip ((pySplit "-!-".data line.data).getD 0 [])⟩ : String))) := by
        intro hpos
        rcases hiff.mp hpos with ⟨c, hc, hprop⟩
        exact hnone c hc hprop
      simp only [bulkLine, if_pos hlen, if_neg hcount]

/-- Witness for C10: a separator-free line and a doubly separated line
change nothing, while a well-formed line over an empty store inserts the
trimmed pair and counts one added. -/
theorem bulkLine_spec_witness :
    bulkLine "T" "S" ([], 0, 0) "plain line" = ([], 0, 0) ∧
    bulkLine "T" "S" ([], 0, 0) "a-!-b-!-c" = ([], 0, 0) ∧
    bulkLine "T" "S" ([], 0, 0) " q -!- ans " =
      ([{ id := nextId [], topic := "T", subtopic := "S",
          key := ⟨pyStrip ((pySplit "-!-".data " q -!- ans ".data).getD 0 [])⟩,
          value := ⟨pyStrip ((pySplit "-!-".data " q -!- ans ".data).getD 1 [])⟩,
          success := 0, failure := 0, bookmarked := false }], 0 + 1, 0) :=
  ⟨(bulkLine_spec "T" "S" [] 0 0 "plain line").1 (by decide),
   (bulkLine_spec "T" "S" [] 0 0 "a-!-b-!-c").1 (by decide),
   ((bulkLine_spec "T" "S" [] 0 0 " q -!- ans ").2 (by decide)).2
     (fun c hc _ => by cases hc)⟩

end SscApp
